import Mathlib

/-!
Verification of the synchronization kernel of the open-code-cli repository
(gh-sync ingest, per-file decision engine, deletion handling, and the
contribute flow), as a shallow embedding in Lean.

Conventions used throughout:
- JavaScript nullable strings are modelled as `Option String`; the JS idiom
  `x || null` and JS truthiness (null, undefined and the empty string are
  falsy) are modelled by explicit helpers.
- The on-disk file system seen through existsSync/readFileSync/writeFileSync
  is a total map from absolute paths to optional contents.
- The MD5 digest of crypto.createHash is an abstract parameter
  `hash : String -> String`.
- External collaborators (the AI merge oracle, git and the GitHub CLI) are
  modelled as explicit inputs recording their outcomes.
-/

namespace OpenCodeCli

/-- Association-list lookup, modelling JS object property access obj[k]. -/
def alookup {α : Type} (l : List (String × α)) (k : String) : Option α :=
  (l.find? (fun p => p.1 == k)).map (fun p => p.2)

/-- Association-list insert-or-replace, modelling JS property assignment obj[k] = v. -/
def ainsert {α : Type} (l : List (String × α)) (k : String) (v : α) : List (String × α) :=
  match l with
  | [] => [(k, v)]
  | (k0, v0) :: rest => if k0 == k then (k, v) :: rest else (k0, v0) :: ainsert rest k v

/-- JS truthiness of a nullable string: null/undefined and the empty string are falsy. -/
def strTruthy : Option String → Bool
  | none => false
  | some s => !(s == "")

/-- Models the JS idiom (x || null) on a nullable string. -/
def orNull (x : Option String) : Option String :=
  if strTruthy x then x else none

/-- Models the JS idiom (a || b) on nullable strings. -/
def jsOr (a b : Option String) : Option String :=
  if strTruthy a then a else b

/-- A flat file system: absolute path to contents; none means the path does not exist.
    This is the view used through existsSync / readFileSync / getFileHash. -/
abbrev Fs := String → Option String

/-- Write a file (fs.writeFileSync / fs.copyFileSync destination). -/
def fsWrite (fs : Fs) (p : String) (content : String) : Fs :=
  fun q => if q == p then some content else fs q

/-- Remove a file (fs.unlinkSync on a regular file). -/
def fsRemove (fs : Fs) (p : String) : Fs :=
  fun q => if q == p then none else fs q

/-- A declared source/local path pair (FetchFile in gh-sync-repo.ts; the field
    named local in the source is called localPath here because local is a Lean keyword). -/
structure FetchFile where
  source : String
  localPath : String
deriving DecidableEq, Repr

/-- Per-file tracker record (FileSyncData in utils/tracker.ts): hash, timestamp,
    optional last action and optional source-relative path. -/
structure FileSyncData where
  hash : String
  syncedAt : String
  action : Option String
  relativeSourcePath : Option String
deriving DecidableEq, Repr

/-- Pull-request record stored in the tracker (PullRequestInfo in utils/tracker.ts).
    status is one of the strings open, closed, merged. -/
structure PullRequestInfo where
  prNumber : Nat
  branchName : String
  status : String
  lastUpdated : String
deriving DecidableEq, Repr

/-- Per-repository tracker record (RepoSyncData in utils/tracker.ts). -/
structure RepoSyncData where
  branch : String
  lastCommitHash : String
  syncedAt : String
  forkRepo : Option String
  filePaths : List FetchFile
  files : List (String × FileSyncData)
  pullRequest : Option PullRequestInfo
deriving DecidableEq, Repr

/-- The tracker root (TrackerConfig in utils/tracker.ts). -/
structure TrackerConfig where
  repos : List (String × RepoSyncData)
deriving DecidableEq, Repr

/-- FileAction enum (gh-sync-utils/types.ts lines 6-11). The enum values are the
    strings copy, none, merge, update_tracker. -/
inductive FileAction where
  | COPY
  | NONE
  | MERGE
  | UPDATE_TRACKER
deriving DecidableEq, Repr

/-- The string value of a FileAction, as stored in the tracker JSON. -/
def FileAction.toStr : FileAction → String
  | .COPY => "copy"
  | .NONE => "none"
  | .MERGE => "merge"
  | .UPDATE_TRACKER => "update_tracker"

/-- Result record of actionOnFile (FileActionResult in gh-sync-utils/types.ts). -/
structure FileActionResult where
  action : FileAction
  sourceFileHash : String
  localFileHash : String
  trackerFileHash : Option String
deriving DecidableEq, Repr

/-- getFileHash (gh-sync-utils/file-utils.ts lines 25-37): empty string when the
    file is absent (or unreadable), otherwise the digest of its contents. -/
def getFileHash (fs : Fs) (hash : String → String) (filePath : String) : String :=
  match fs filePath with
  | none => ""
  | some content => hash content

/-- The tracker hash read of actionOnFile, line 73:
    trackerConfig.repos[repo]?.files?.[relativeLocalPath]?.hash || null. -/
def trackerFileHashOf (t : TrackerConfig) (repo relativeLocalPath : String) : Option String :=
  orNull ((alookup t.repos repo).bind
    (fun r => (alookup r.files relativeLocalPath).map (fun f => f.hash)))

/-- The tracker action read of actionOnFile, line 74:
    trackerConfig.repos[repo]?.files?.[relativeLocalPath]?.action || null. -/
def trackerActionOf (t : TrackerConfig) (repo relativeLocalPath : String) : Option String :=
  orNull ((alookup t.repos repo).bind
    (fun r => (alookup r.files relativeLocalPath).bind (fun f => f.action)))

/-- The last commit read of actionOnFile, line 77:
    trackerConfig.repos[repo]?.lastCommitHash || null. -/
def lastCommitHashOf (t : TrackerConfig) (repo : String) : Option String :=
  orNull ((alookup t.repos repo).map (fun r => r.lastCommitHash))

/-- The current commit of actionOnFile, line 78:
    sourceCommitHash || lastCommitHash || null. -/
def currentCommitHashOf (t : TrackerConfig) (repo : String)
    (sourceCommitHash : Option String) : Option String :=
  jsOr sourceCommitHash (jsOr (lastCommitHashOf t repo) none)

/-- actionOnFile (gh-sync-utils/file-utils.ts lines 48-167), the per-file decision
    engine. The function declares six parameters; the call in
    executeSyncOperations that passes a seventh force argument therefore has no
    effect on the decision. Comparisons with the nullable tracker hash follow
    the JS strict-equality semantics (null is equal only to null). -/
def actionOnFile (fs : Fs) (hash : String → String)
    (sourcePath localPath repo relativeLocalPath : String)
    (trackerConfig : TrackerConfig) (sourceCommitHash : Option String) : FileActionResult :=
  if (fs localPath).isNone then
    { action := FileAction.COPY
      sourceFileHash := getFileHash fs hash sourcePath
      localFileHash := ""
      trackerFileHash := none }
  else
    let sourceFileHash := getFileHash fs hash sourcePath
    let localFileHash := getFileHash fs hash localPath
    let trackerFileHash := trackerFileHashOf trackerConfig repo relativeLocalPath
    let trackerAction := trackerActionOf trackerConfig repo relativeLocalPath
    let lastCommitHash := lastCommitHashOf trackerConfig repo
    let currentCommitHash := currentCommitHashOf trackerConfig repo sourceCommitHash
    if trackerAction == some "merge" then
      if lastCommitHash == currentCommitHash then
        { action := FileAction.NONE, sourceFileHash := sourceFileHash,
          localFileHash := localFileHash, trackerFileHash := trackerFileHash }
      else
        { action := FileAction.MERGE, sourceFileHash := sourceFileHash,
          localFileHash := localFileHash, trackerFileHash := trackerFileHash }
    else if trackerFileHash.isNone then
      { action := FileAction.COPY, sourceFileHash := sourceFileHash,
        localFileHash := localFileHash, trackerFileHash := trackerFileHash }
    else if trackerFileHash == some localFileHash && !(localFileHash == sourceFileHash) then
      { action := FileAction.COPY, sourceFileHash := sourceFileHash,
        localFileHash := localFileHash, trackerFileHash := trackerFileHash }
    else if !(trackerFileHash == some localFileHash) && trackerFileHash == some sourceFileHash then
      { action := FileAction.NONE, sourceFileHash := sourceFileHash,
        localFileHash := localFileHash, trackerFileHash := trackerFileHash }
    else if !(trackerFileHash == some localFileHash) && localFileHash == sourceFileHash then
      { action := FileAction.COPY, sourceFileHash := sourceFileHash,
        localFileHash := localFileHash, trackerFileHash := trackerFileHash }
    else if !(trackerFileHash == some localFileHash) && !(localFileHash == sourceFileHash) then
      { action := FileAction.MERGE, sourceFileHash := sourceFileHash,
        localFileHash := localFileHash, trackerFileHash := trackerFileHash }
    else
      { action := FileAction.NONE, sourceFileHash := sourceFileHash,
        localFileHash := localFileHash, trackerFileHash := trackerFileHash }

/-- A file operation enumerated by the ingest walker (FileSyncOperation in
    gh-sync-utils/types.ts). -/
structure FileSyncOperation where
  sourcePath : String
  localPath : String
  repo : String
  relativeSourcePath : String
  relativeLocalPath : String
deriving DecidableEq, Repr

/-- The inner syncResult record built by executeSyncOperations. -/
structure SyncOpResult where
  success : Bool
  message : String
  fileHash : String
  syncedAt : String
deriving DecidableEq, Repr

/-- Result of one sync operation (FileSyncResult in gh-sync-utils/types.ts);
    the source duplicates success and message at top level next to syncResult. -/
structure FileSyncResult where
  operation : FileSyncOperation
  actionResult : FileActionResult
  syncResult : SyncOpResult
  success : Bool
  message : String
deriving DecidableEq, Repr

/-- Outcome of one call to the AI merge oracle (aiMerge in utils/ai-utils.ts):
    merged content, a null/empty answer, or a thrown error. -/
inductive MergeOutcome where
  | ok (content : String)
  | noContent
  | err (msg : String)
deriving DecidableEq, Repr

/-- The environment executeSyncOperations consults for merging: the OpenRouter
    model and key from getOpenRouterModel/getOpenRouterApiKey, and the oracle
    itself, taking the local then the source content. -/
structure OracleEnv where
  model : Option String
  apiKey : Option String
  aiMerge : String → String → MergeOutcome

/-- State threaded through executeSyncOperations: the workspace file system,
    the updatedFiles map (repo to relative-local-path to record), and the
    accumulated results. -/
structure ExecState where
  fs : Fs
  updatedFiles : List (String × List (String × FileSyncData))
  results : List FileSyncResult

/-- Insert a file record into the nested updatedFiles map. -/
def ainsertFile (u : List (String × List (String × FileSyncData)))
    (repo rel : String) (v : FileSyncData) : List (String × List (String × FileSyncData)) :=
  ainsert u repo (ainsert ((alookup u repo).getD []) rel v)

/-- Build one FileSyncResult the way executeSyncOperations pushes them. -/
def mkSyncResult (operation : FileSyncOperation) (actionResult : FileActionResult)
    (success : Bool) (message fileHash now : String) : FileSyncResult :=
  { operation := operation, actionResult := actionResult,
    syncResult := { success := success, message := message, fileHash := fileHash, syncedAt := now },
    success := success, message := message }

/-- One iteration of the loop of executeSyncOperations
    (gh-sync-utils/file-utils.ts, concatenated lines 410-621). The source
    passes force as a seventh argument to actionOnFile, which declares only six
    parameters, so the force flag never reaches the decision; the model
    reflects that by not forwarding it. -/
def executeSyncOp (hash : String → String) (env : OracleEnv) (now : String)
    (trackerConfig : TrackerConfig) (sourceCommitHash : Option String) (force : Bool)
    (st : ExecState) (operation : FileSyncOperation) : ExecState :=
  let _ := force
  let upd0 :=
    match alookup st.updatedFiles operation.repo with
    | none => ainsert st.updatedFiles operation.repo []
    | some _ => st.updatedFiles
  let actionResult := actionOnFile st.fs hash operation.sourcePath operation.localPath
    operation.repo operation.relativeLocalPath trackerConfig sourceCommitHash
  match actionResult.action with
  | FileAction.COPY =>
    match st.fs operation.sourcePath with
    | some content =>
        let fs1 := fsWrite st.fs operation.localPath content
        let fileHash := getFileHash fs1 hash operation.localPath
        { fs := fs1
          updatedFiles := ainsertFile upd0 operation.repo operation.relativeLocalPath
            { hash := fileHash, syncedAt := now, action := some "copy",
              relativeSourcePath := some operation.relativeSourcePath }
          results := st.results ++
            [mkSyncResult operation actionResult true "File copied successfully" fileHash now] }
    | none =>
        -- copyFileSync throws when the source file is missing; the catch marks the
        -- operation failed and no record is produced
        { fs := st.fs, updatedFiles := upd0,
          results := st.results ++
            [mkSyncResult operation actionResult false "Failed to copy file" "" now] }
  | FileAction.NONE =>
      { fs := st.fs, updatedFiles := upd0,
        results := st.results ++
          [mkSyncResult operation actionResult true
            "No action needed (unchanged or local changes only)" actionResult.localFileHash now] }
  | FileAction.UPDATE_TRACKER =>
      { fs := st.fs
        updatedFiles := ainsertFile upd0 operation.repo operation.relativeLocalPath
          { hash := actionResult.localFileHash, syncedAt := now, action := some "update_tracker",
            relativeSourcePath := some operation.relativeSourcePath }
        results := st.results ++
          [mkSyncResult operation actionResult true
            "Updated tracker hash only (local changes synced with source)"
            actionResult.localFileHash now] }
  | FileAction.MERGE =>
    if !(strTruthy env.model) || !(strTruthy env.apiKey) then
      { fs := st.fs, updatedFiles := upd0,
        results := st.results ++
          [mkSyncResult operation actionResult false
            "AI merge failed: OpenRouter configuration not found. Run init-open-router command first."
            "" now] }
    else
      match st.fs operation.sourcePath, st.fs operation.localPath with
      | some sourceContent, some localContent =>
        match env.aiMerge localContent sourceContent with
        | MergeOutcome.ok mergedContent =>
            let backupPath := operation.localPath ++ ".backup-" ++ now
            let fs1 := fsWrite st.fs backupPath localContent
            let fs2 := fsWrite fs1 operation.localPath mergedContent
            let fs3 := fsRemove fs2 backupPath
            let fileHash := getFileHash fs3 hash operation.localPath
            { fs := fs3
              updatedFiles := ainsertFile upd0 operation.repo operation.relativeLocalPath
                { hash := fileHash, syncedAt := now, action := some "merge",
                  relativeSourcePath := some operation.relativeSourcePath }
              results := st.results ++
                [mkSyncResult operation actionResult true
                  "Files merged successfully using AI" fileHash now] }
        | MergeOutcome.noContent =>
            { fs := st.fs, updatedFiles := upd0,
              results := st.results ++
                [mkSyncResult operation actionResult false
                  "AI merge failed: Could not generate merged content" "" now] }
        | MergeOutcome.err msg =>
            { fs := st.fs, updatedFiles := upd0,
              results := st.results ++
                [mkSyncResult operation actionResult false ("AI merge failed: " ++ msg) "" now] }
      | _, _ =>
          -- readFileSync threw on the source or the local file
          { fs := st.fs, updatedFiles := upd0,
            results := st.results ++
              [mkSyncResult operation actionResult false "AI merge failed: read error" "" now] }

/-- executeSyncOperations (gh-sync-utils/file-utils.ts): fold the per-operation
    step over the batch, starting from an empty updatedFiles map. -/
def executeSyncOperations (fs : Fs) (hash : String → String) (env : OracleEnv) (now : String)
    (operations : List FileSyncOperation) (trackerConfig : TrackerConfig)
    (sourceCommitHash : Option String) (force : Bool) : ExecState :=
  operations.foldl (executeSyncOp hash env now trackerConfig sourceCommitHash force)
    { fs := fs, updatedFiles := [], results := [] }

/-- A repo group of the workflow file (RepoGroup in gh-sync-repo.ts lines 31-44);
    optional fields keep their JS optionality. -/
structure RepoGroup where
  repo : String
  files : List FetchFile
  sync : Option Bool
  branch : Option String
  force : Option Bool
  forkRepo : Option String
deriving DecidableEq, Repr

/-- Result of checkIfShouldFetch. -/
structure ShouldFetchResult where
  shouldFetch : Bool
  latestCommitHash : String
deriving DecidableEq, Repr

/-- checkIfShouldFetch (gh-sync-repo.ts lines 164-203). The remote tip lookup is
    an input: an error models a thrown getLatestCommitHash, after which the
    catch leaves shouldFetch true and the hash empty. The commit comparison runs
    only when sync is enabled and force is disabled. -/
def checkIfShouldFetch (repo branch : String) (sync force : Bool)
    (trackerConfig : TrackerConfig) (tipResult : Except String String) : ShouldFetchResult :=
  match tipResult with
  | Except.error _ => { shouldFetch := true, latestCommitHash := "" }
  | Except.ok latestCommitHash =>
    if sync && !force then
      let repoData := alookup trackerConfig.repos repo
      let lastSyncedCommit : Option String :=
        match repoData with
        | some rd => if rd.branch == branch then some rd.lastCommitHash else none
        | none => none
      { shouldFetch := !(strTruthy lastSyncedCommit) || !(lastSyncedCommit == some latestCommitHash),
        latestCommitHash := latestCommitHash }
    else
      { shouldFetch := true, latestCommitHash := latestCommitHash }

/-- updateTrackerWithLatestData (gh-sync-repo.ts lines 294-362): create or
    refresh the repo record, then merge the per-file data produced by the sync
    operations into the files map. Existing file records are only added to or
    overwritten, never removed (the source only deletes a legacy path property
    inside individual records). -/
def updateTrackerWithLatestData (repo branch latestCommitHash : String)
    (fileData : List (String × List (String × FileSyncData)))
    (trackerConfig : TrackerConfig) (filePaths : List FetchFile) (forkRepo : Option String)
    (now : String) : TrackerConfig :=
  let repos1 :=
    match alookup trackerConfig.repos repo with
    | none =>
        ainsert trackerConfig.repos repo
          { branch := branch, lastCommitHash := latestCommitHash, syncedAt := now,
            forkRepo := if strTruthy forkRepo then forkRepo else none,
            filePaths := filePaths, files := [], pullRequest := none }
    | some rd =>
        ainsert trackerConfig.repos repo
          { rd with lastCommitHash := latestCommitHash, syncedAt := now,
                    filePaths := filePaths,
                    forkRepo := if strTruthy forkRepo then forkRepo else rd.forkRepo }
  let repos2 :=
    match alookup fileData repo with
    | some perRepo =>
        if perRepo.length > 0 then
          match alookup repos1 repo with
          | some rd2 =>
              ainsert repos1 repo
                { rd2 with files := perRepo.foldl (fun acc kv => ainsert acc kv.1 kv.2) rd2.files }
          | none => repos1
        else repos1
    | none => repos1
  { repos := repos2 }

/-- The tracker state at the end of processRepo (gh-sync-repo.ts lines 52-159):
    an early return when shouldFetch is false, and in the finally block the
    tracker is written only when sync is enabled, a tip hash was obtained and
    no error occurred. -/
def processRepoTrackerAfter (repoGroup : RepoGroup) (trackerConfig : TrackerConfig)
    (tipResult : Except String String)
    (fileData : List (String × List (String × FileSyncData)))
    (hasError : Bool) (now : String) : TrackerConfig :=
  let branch := repoGroup.branch.getD "main"
  let sync := repoGroup.sync.getD false
  let force := repoGroup.force.getD false
  let r := checkIfShouldFetch repoGroup.repo branch sync force trackerConfig tipResult
  if !r.shouldFetch then trackerConfig
  else if sync && !(r.latestCommitHash == "") && !hasError then
    updateTrackerWithLatestData repoGroup.repo branch r.latestCommitHash fileData trackerConfig
      repoGroup.files repoGroup.forkRepo now
  else trackerConfig

/-- Outcomes of the external git/GitHub collaborators consulted during one
    repository's contribute pass (repo-utils.ts and sync-utils.ts of
    contribute-utils): the PR status query, and the success of each mutating
    step. -/
structure GitWorld where
  prStatusOf : String → Nat → Option PullRequestInfo
  syncForkOk : Bool
  checkoutOk : Bool
  mergeMainOk : Bool
  createBranchOk : Bool
  commitOk : Bool
  changesCommitted : Bool
  pushOk : Bool
  forcePushOk : Bool
  createPRResult : Option (Nat × String)

/-- Observable trace of one repository's contribute pass. -/
structure ContributeRepoTrace where
  branchName : String
  updateExistingPR : Bool
  syncForkAttempted : Bool
  abortedOnSyncFork : Bool
  abortedOnBranch : Bool
  forcePushAttempted : Bool
  regularPushAttempted : Bool
  prCreateAttempted : Bool
  prCreated : Bool
  pullRequestAfter : Option PullRequestInfo
deriving Repr

/-- A trace with every step flag cleared. -/
def baseTrace (branchName : String) (upd : Bool) (prAfter : Option PullRequestInfo) :
    ContributeRepoTrace :=
  { branchName := branchName, updateExistingPR := upd, syncForkAttempted := false,
    abortedOnSyncFork := false, abortedOnBranch := false, forcePushAttempted := false,
    regularPushAttempted := false, prCreateAttempted := false, prCreated := false,
    pullRequestAfter := prAfter }

/-- One repository's pass of handleContributeCommand
    (contribute-utils/contribute-handler.ts lines 85-183) combined with
    processRepositoryAndCreatePR (concatenated lines 307-414). The tracker PR
    record is reused only when the forge still reports the recorded PR open;
    syncForkWithSource runs only when updating an existing PR on a distinct
    fork, and its failure makes the engine log an error and continue with the
    next repository; pushes are forced exactly when updating an existing PR; a
    new PR is created only when not updating one. The merge of main into the
    checked-out branch is warn-only and does not influence the trace. -/
def contributeRepo (repo forkRepo defaultBranchName : String)
    (repoData : Option RepoSyncData) (world : GitWorld)
    (opsEmpty : Bool) (dryRun : Bool) (now : String) : ContributeRepoTrace :=
  let existingPR := repoData.bind (fun rd => rd.pullRequest)
  let decision : String × Bool :=
    match existingPR with
    | some prInfo =>
        match world.prStatusOf repo prInfo.prNumber with
        | some st =>
            if st.status == "open" then (prInfo.branchName, true) else (defaultBranchName, false)
        | none => (defaultBranchName, false)
    | none => (defaultBranchName, false)
  let branchName := decision.1
  let updateExistingPR := decision.2
  let syncForkAttempted := updateExistingPR && !(forkRepo == repo)
  if syncForkAttempted && !world.syncForkOk then
    { baseTrace branchName updateExistingPR existingPR with
        syncForkAttempted := true, abortedOnSyncFork := true }
  else
    let branchSuccess := if updateExistingPR then world.checkoutOk else world.createBranchOk
    if !branchSuccess then
      { baseTrace branchName updateExistingPR existingPR with
          syncForkAttempted := syncForkAttempted, abortedOnBranch := true }
    else if opsEmpty then
      { baseTrace branchName updateExistingPR existingPR with
          syncForkAttempted := syncForkAttempted }
    else if dryRun then
      { baseTrace branchName updateExistingPR existingPR with
          syncForkAttempted := syncForkAttempted }
    else if !world.commitOk then
      { baseTrace branchName updateExistingPR existingPR with
          syncForkAttempted := syncForkAttempted }
    else if !world.changesCommitted then
      { baseTrace branchName updateExistingPR existingPR with
          syncForkAttempted := syncForkAttempted }
    else if updateExistingPR then
      { baseTrace branchName updateExistingPR
          (if world.forcePushOk then existingPR.map (fun pr => { pr with lastUpdated := now })
           else existingPR) with
          syncForkAttempted := syncForkAttempted, forcePushAttempted := true }
    else if !world.pushOk then
      { baseTrace branchName updateExistingPR existingPR with
          syncForkAttempted := syncForkAttempted, regularPushAttempted := true }
    else
      match world.createPRResult with
      | some pr =>
          { baseTrace branchName updateExistingPR
              (some { prNumber := pr.1, branchName := branchName, status := "open",
                      lastUpdated := now }) with
              syncForkAttempted := syncForkAttempted, regularPushAttempted := true,
              prCreateAttempted := true, prCreated := true }
      | none =>
          { baseTrace branchName updateExistingPR existingPR with
              syncForkAttempted := syncForkAttempted, regularPushAttempted := true,
              prCreateAttempted := true }

/-- Operation kind of a contribute sync operation. -/
inductive ContributeOperationType where
  | copy
  | delete
deriving DecidableEq, Repr

/-- A contribute sync operation (ContributeSyncOperation in
    contribute-utils, with operationType). -/
structure ContributeSyncOperation where
  absoluteLocalPath : String
  absoluteSourcePath : String
  relativeLocalPath : String
  relativeSourcePath : String
  repo : String
  operationType : ContributeOperationType
deriving DecidableEq, Repr

/-- Action recorded in a contribute result: copy, delete or skip. -/
inductive ContribResultAction where
  | copy
  | delete
  | skip
deriving DecidableEq, Repr

/-- The action string recorded for an operation in dry-run mode. -/
def contribOpAction : ContributeOperationType → ContribResultAction
  | ContributeOperationType.copy => ContribResultAction.copy
  | ContributeOperationType.delete => ContribResultAction.delete

/-- Result of one contribute sync operation (ContributeSyncResult). -/
structure ContributeSyncResult where
  operation : ContributeSyncOperation
  success : Bool
  error : Option String
  action : ContribResultAction
deriving DecidableEq, Repr

/-- executeContributeSyncOperations (contribute-handler.ts concatenated lines
    572-639): apply each copy/delete to the fork clone. Copies read the local
    workspace (localFs) and write into the clone; deletes remove from the clone
    when the target exists and otherwise record a successful skip. In dry-run
    mode nothing is touched and the intended action is recorded. -/
def executeContributeSyncOperations (localFs : Fs) (forkFs : Fs)
    (operations : List ContributeSyncOperation) (dryRun : Bool) :
    Fs × List ContributeSyncResult :=
  operations.foldl
    (fun st operation =>
      if dryRun then
        (st.1, st.2 ++ [{ operation := operation, success := true, error := none,
                          action := contribOpAction operation.operationType }])
      else
        match operation.operationType with
        | ContributeOperationType.copy =>
            match localFs operation.absoluteLocalPath with
            | some c =>
                (fsWrite st.1 operation.absoluteSourcePath c,
                 st.2 ++ [{ operation := operation, success := true, error := none,
                            action := ContribResultAction.copy }])
            | none =>
                -- copyFileSync throws when the local file is missing
                (st.1, st.2 ++ [{ operation := operation, success := false,
                                  error := some "ENOENT", action := ContribResultAction.copy }])
        | ContributeOperationType.delete =>
            match st.1 operation.absoluteSourcePath with
            | some _ =>
                (fsRemove st.1 operation.absoluteSourcePath,
                 st.2 ++ [{ operation := operation, success := true, error := none,
                            action := ContribResultAction.delete }])
            | none =>
                (st.1, st.2 ++ [{ operation := operation, success := true, error := none,
                                  action := ContribResultAction.skip }]))
    (forkFs, [])

mutual
/-- A directory-tree entry: a regular file with contents or a directory. -/
inductive FsEntry where
  | file (content : String)
  | dir (entries : FsEntries)
deriving Repr
/-- Named entries of a directory, in readdirSync order. -/
inductive FsEntries where
  | nil
  | cons (name : String) (entry : FsEntry) (rest : FsEntries)
deriving Repr
end

/-- Whether an entry is a directory (dirent.isDirectory). -/
def isDir : FsEntry → Bool
  | FsEntry.dir _ => true
  | FsEntry.file _ => false

/-- Join a relative path with an entry name, as path.join/path.relative yield. -/
def joinRel (base name : String) : String :=
  if base == "" then name else base ++ "/" ++ name

mutual
/-- The relative paths of all regular files under an entry named name at
    relative position rel (the collectSourceFiles walk of handleDeletedFiles,
    file-utils.ts lines 201-214). -/
def collectFilesEntry (rel name : String) : FsEntry → List String
  | FsEntry.file _ => [joinRel rel name]
  | FsEntry.dir es => collectFilesEntries (joinRel rel name) es

/-- The file-collecting walk over a directory's entries. -/
def collectFilesEntries (rel : String) : FsEntries → List String
  | FsEntries.nil => []
  | FsEntries.cons n e tl => collectFilesEntry rel n e ++ collectFilesEntries rel tl
end

/-- A deletion candidate as built by handleDeletedFiles: the file's path inside
    the local directory (as components) and its path relative to the workspace
    root (the relativePath field of the source). -/
structure DeleteCandidate where
  pathComponents : List String
  relativePath : String
deriving DecidableEq, Repr

mutual
/-- The collectFilesToDelete walk (file-utils.ts lines 231-257) for one entry:
    a regular file absent from the source set is a candidate when tracker
    narrowing is off (no tracker data for the repo) or the root-relative path
    is tracked. -/
def collectDeleteEntry (sourceFiles : List String) (trackedFiles : Option (List String))
    (localBase rel : String) (comps : List String) (name : String) :
    FsEntry → List DeleteCandidate
  | FsEntry.file _ =>
      let relPath := joinRel rel name
      if sourceFiles.contains relPath then []
      else
        let relativeToRoot := joinRel localBase relPath
        let isTracked := trackedFiles.isNone || (trackedFiles.getD []).contains relativeToRoot
        if isTracked then
          [{ pathComponents := comps ++ [name], relativePath := relativeToRoot }]
        else []
  | FsEntry.dir es =>
      collectDeleteEntries sourceFiles trackedFiles localBase (joinRel rel name)
        (comps ++ [name]) es

/-- The candidate-collecting walk over a directory's entries. -/
def collectDeleteEntries (sourceFiles : List String) (trackedFiles : Option (List String))
    (localBase rel : String) (comps : List String) : FsEntries → List DeleteCandidate
  | FsEntries.nil => []
  | FsEntries.cons n e tl =>
      collectDeleteEntry sourceFiles trackedFiles localBase rel comps n e ++
      collectDeleteEntries sourceFiles trackedFiles localBase rel comps tl
end

/-- The interactive answer to the deleted-files prompt of handleDeletedFiles:
    delete all files, select files to delete (with the chosen root-relative
    paths), or keep all files. -/
inductive DeleteChoice where
  | deleteAll
  | selectFiles (selected : List String)
  | keepAll
deriving DecidableEq, Repr

mutual
/-- Remove the regular file at the given path below an entry (unlinkSync on a
    file path); directories and missing targets are left alone. -/
def removeFileAt : FsEntry → List String → FsEntry
  | FsEntry.file c, _ => FsEntry.file c
  | FsEntry.dir es, [] => FsEntry.dir es
  | FsEntry.dir es, n :: rest => FsEntry.dir (removeFileEntries es n rest)

/-- File removal on a directory's entries. -/
def removeFileEntries : FsEntries → String → List String → FsEntries
  | FsEntries.nil, _, _ => FsEntries.nil
  | FsEntries.cons m e tl, n, rest =>
      match rest with
      | [] =>
          if m == n && !(isDir e) then removeFileEntries tl n rest
          else FsEntries.cons m e (removeFileEntries tl n rest)
      | _ :: _ =>
          if m == n then FsEntries.cons m (removeFileAt e rest) (removeFileEntries tl n rest)
          else FsEntries.cons m e (removeFileEntries tl n rest)
end

/-- Remove a file path from a directory's entry list. -/
def removeEntriesPath (es : FsEntries) (p : List String) : FsEntries :=
  match p with
  | [] => es
  | n :: rest => removeFileEntries es n rest

/-- Remove a batch of file paths, in order. -/
def removeAllEntries (es : FsEntries) (paths : List (List String)) : FsEntries :=
  paths.foldl removeEntriesPath es

mutual
/-- The contents of the regular file at a path below an entry, if any. -/
def lookupFile : FsEntry → List String → Option String
  | FsEntry.file c, [] => some c
  | FsEntry.file _, _ :: _ => none
  | FsEntry.dir _, [] => none
  | FsEntry.dir es, n :: rest => lookupFileEntries es n rest

/-- File lookup on a directory's entries. -/
def lookupFileEntries : FsEntries → String → List String → Option String
  | FsEntries.nil, _, _ => none
  | FsEntries.cons m e tl, n, rest =>
      if m == n then lookupFile e rest else lookupFileEntries tl n rest
end

/-- File lookup by path on a directory's entry list. -/
def lookupEntriesPath (es : FsEntries) (p : List String) : Option String :=
  match p with
  | [] => none
  | n :: rest => lookupFileEntries es n rest

mutual
/-- The entry (file or directory) at a path below an entry, if any. -/
def entryAt : FsEntry → List String → Option FsEntry
  | e, [] => some e
  | FsEntry.file _, _ :: _ => none
  | FsEntry.dir es, n :: rest => entryAtEntries es n rest

/-- Entry lookup on a directory's entries. -/
def entryAtEntries : FsEntries → String → List String → Option FsEntry
  | FsEntries.nil, _, _ => none
  | FsEntries.cons m e tl, n, rest =>
      if m == n then entryAt e rest else entryAtEntries tl n rest
end

/-- Whether an optional entry is an empty directory. -/
def isEmptyDir : Option FsEntry → Bool
  | some (FsEntry.dir FsEntries.nil) => true
  | _ => false

/-- Whether a directory's entries contain the given name. -/
def containsName : FsEntries → String → Bool
  | FsEntries.nil, _ => false
  | FsEntries.cons m _ tl, n => m == n || containsName tl n

mutual
/-- Well-formedness of a tree as a file system: entry names are unique within
    each directory. -/
def wfEntry : FsEntry → Bool
  | FsEntry.file _ => true
  | FsEntry.dir es => wfEntries es

/-- Well-formedness of a directory's entries. -/
def wfEntries : FsEntries → Bool
  | FsEntries.nil => true
  | FsEntries.cons n e tl => !(containsName tl n) && wfEntry e && wfEntries tl
end

/-- Whether a directory's entries contain a subdirectory (the
    some(e.isDirectory) test of cleanEmptyDirs). -/
def hasSubdirectory : FsEntries → Bool
  | FsEntries.nil => false
  | FsEntries.cons _ e tl => isDir e || hasSubdirectory tl

mutual
/-- cleanEmptyDirs (file-utils.ts lines 314-338). The walk recurses into
    subdirectories that themselves contain a directory; when a directory has
    become empty the source calls unlinkSync on the directory path, but Node's
    unlinkSync never removes a directory (it raises EISDIR, or ENOTDIR when
    readdirSync is applied to a file entry) and the surrounding try/catch
    swallows every error, so nothing is ever removed. -/
def cleanEmptyDirs : FsEntry → FsEntry
  | FsEntry.file c => FsEntry.file c
  | FsEntry.dir es => FsEntry.dir (cleanEmptyDirsEntries es)

/-- The cleanup walk over a directory's entries. -/
def cleanEmptyDirsEntries : FsEntries → FsEntries
  | FsEntries.nil => FsEntries.nil
  | FsEntries.cons n e tl =>
      match e with
      | FsEntry.dir sub =>
          FsEntries.cons n
            (if hasSubdirectory sub then FsEntry.dir (cleanEmptyDirsEntries sub)
             else FsEntry.dir sub)
            (cleanEmptyDirsEntries tl)
      | FsEntry.file c => FsEntries.cons n (FsEntry.file c) (cleanEmptyDirsEntries tl)
end

/-- Result of the ingest deletion pass. -/
structure DeletedFilesResult where
  localAfter : Option FsEntries
  removedFiles : List String

/-- The tracked-file key set consulted by handleDeletedFiles (keys of
    trackerConfig.repos...files when the repo has tracker data, null
    otherwise). -/
def trackedFilesOf (t : TrackerConfig) (repo : String) : Option (List String) :=
  (alookup t.repos repo).map (fun r => r.files.map Prod.fst)

/-- The filesToDelete list computed by handleDeletedFiles for a local directory
    whose entries are les, mapped at localBase below the workspace root. A
    missing source directory contributes an empty source set. -/
def filesToDeleteOf (sourceDir : Option FsEntries) (les : FsEntries)
    (localBase repo : String) (t : TrackerConfig) : List DeleteCandidate :=
  let sourceFiles :=
    match sourceDir with
    | none => []
    | some ses => collectFilesEntries "" ses
  collectDeleteEntries sourceFiles (trackedFilesOf t repo) localBase "" [] les

/-- handleDeletedFiles (file-utils.ts lines 186-344), called from processRepo
    with the workspace root and repo always supplied. Candidates are the local
    files absent from the source snapshot, narrowed to tracked files only when
    the repo has tracker data; nothing happens without a non-empty candidate
    list and an affirmative prompt answer; chosen files exist in the tree so
    each unlinkSync succeeds, and the final cleanup walk is cleanEmptyDirs. -/
def handleDeletedFiles (sourceDir localDir : Option FsEntries) (localBase repo : String)
    (t : TrackerConfig) (choice : DeleteChoice) : DeletedFilesResult :=
  match localDir with
  | none => { localAfter := none, removedFiles := [] }
  | some les =>
    let filesToDelete := filesToDeleteOf sourceDir les localBase repo t
    if filesToDelete.isEmpty then { localAfter := some les, removedFiles := [] }
    else
      match choice with
      | DeleteChoice.keepAll => { localAfter := some les, removedFiles := [] }
      | DeleteChoice.deleteAll =>
          let les1 := removeAllEntries les (filesToDelete.map (fun c => c.pathComponents))
          { localAfter := some (cleanEmptyDirsEntries les1),
            removedFiles := filesToDelete.map (fun c => c.relativePath) }
      | DeleteChoice.selectFiles selected =>
          if selected.isEmpty then { localAfter := some les, removedFiles := [] }
          else
            let chosen := filesToDelete.filter (fun c => selected.contains c.relativePath)
            let les1 := removeAllEntries les (chosen.map (fun c => c.pathComponents))
            { localAfter := some (cleanEmptyDirsEntries les1),
              removedFiles := chosen.map (fun c => c.relativePath) }

/-- Entry lookup below an optional directory-entry list. -/
def entryAtOpt (oes : Option FsEntries) (p : List String) : Option FsEntry :=
  match oes, p with
  | some es, n :: rest => entryAtEntries es n rest
  | _, _ => none

/-! Concrete scenarios used by counterexamples and witnesses. -/

/-- Scenario: local file equals the source file while the tracker hash is stale. -/
def c1Fs : Fs := fun p =>
  if p == "src/a.md" then some "v2" else if p == "out/a.md" then some "v2" else none

/-- Tracker for the stale-hash scenario: the record holds an old hash and a copy action. -/
def c1Tracker : TrackerConfig :=
  { repos := [("r",
      { branch := "main", lastCommitHash := "c1", syncedAt := "", forkRepo := none,
        filePaths := [],
        files := [("out/a.md",
          { hash := "h1", syncedAt := "", action := some "copy",
            relativeSourcePath := some "a.md" })],
        pullRequest := none })] }

/-- Tracker with a previously merged file record and last commit c1. -/
def c2Tracker : TrackerConfig :=
  { repos := [("r",
      { branch := "main", lastCommitHash := "c1", syncedAt := "", forkRepo := none,
        filePaths := [],
        files := [("out/a.md",
          { hash := "h1", syncedAt := "", action := some "merge",
            relativeSourcePath := some "a.md" })],
        pullRequest := none })] }

/-- Scenario: the locally tracked merged file has been deleted from disk. -/
def c2Fs : Fs := fun p => if p == "src/a.md" then some "v9" else none

/-- Scenario: the merged file is present locally. -/
def c2wFs : Fs := fun p =>
  if p == "src/a.md" then some "v9" else if p == "out/a.md" then some "v5" else none

/-- Operation under the docs-to-out mapping used by the executor scenarios. -/
def op3 : FileSyncOperation :=
  { sourcePath := "src/a.md", localPath := "out/a.md", repo := "r",
    relativeSourcePath := "a.md", relativeLocalPath := "out/a.md" }

/-- Scenario: only the local file changed (local differs from tracker, tracker
    hash equals the source hash). -/
def c3Fs : Fs := fun p =>
  if p == "src/a.md" then some "v1" else if p == "out/a.md" then some "v1-local" else none

/-- Tracker for the local-only-change scenario. -/
def c3Tracker : TrackerConfig :=
  { repos := [("r",
      { branch := "main", lastCommitHash := "c1", syncedAt := "", forkRepo := none,
        filePaths := [],
        files := [("out/a.md",
          { hash := "v1", syncedAt := "", action := some "copy",
            relativeSourcePath := some "a.md" })],
        pullRequest := none })] }

/-- An oracle environment whose merge always returns no content. -/
def env3 : OracleEnv :=
  { model := some "m", apiKey := some "k", aiMerge := fun _ _ => MergeOutcome.noContent }

/-- Scenario: both sides diverged, so the decision is MERGE. -/
def c5Fs : Fs := fun p =>
  if p == "src/a.md" then some "sv" else if p == "out/a.md" then some "lv" else none

/-- Tracker for the diverged scenario. -/
def c5Tracker : TrackerConfig :=
  { repos := [("r",
      { branch := "main", lastCommitHash := "c1", syncedAt := "", forkRepo := none,
        filePaths := [],
        files := [("out/a.md",
          { hash := "h0", syncedAt := "", action := some "copy",
            relativeSourcePath := some "a.md" })],
        pullRequest := none })] }

/-- A local directory holding a single untracked file. -/
def les4 : FsEntries := FsEntries.cons "junk.md" (FsEntry.file "x") FsEntries.nil

/-- An empty tracker: no repository has tracker data. -/
def c4Tracker : TrackerConfig := { repos := [] }

/-- Repo record used by the C4 witness tracker. -/
def c4wRd : RepoSyncData :=
  { branch := "main", lastCommitHash := "c1", syncedAt := "", forkRepo := none,
    filePaths := [],
    files := [("out/junk.md",
      { hash := "h", syncedAt := "", action := some "copy",
        relativeSourcePath := some "junk.md" })],
    pullRequest := none }

/-- Tracker that does carry data for repo r, tracking out/junk.md. -/
def c4wTracker : TrackerConfig := { repos := [("r", c4wRd)] }

/-- A local directory out containing sub/a.md, tracked by the tracker below. -/
def les9 : FsEntries :=
  FsEntries.cons "sub" (FsEntry.dir (FsEntries.cons "a.md" (FsEntry.file "v") FsEntries.nil))
    FsEntries.nil

/-- Repo record tracking out/sub/a.md. -/
def rd9 : RepoSyncData :=
  { branch := "main", lastCommitHash := "c1", syncedAt := "", forkRepo := none,
    filePaths := [{ source := "docs", localPath := "out" }],
    files := [("out/sub/a.md",
      { hash := "h", syncedAt := "", action := some "copy",
        relativeSourcePath := some "sub/a.md" })],
    pullRequest := none }

/-- Tracker for the C9 scenario. -/
def tracker9 : TrackerConfig := { repos := [("r", rd9)] }

/-- The single deletion candidate of the C9 scenario. -/
def c9cand : DeleteCandidate :=
  { pathComponents := ["sub", "a.md"], relativePath := "out/sub/a.md" }

/-- Repo group with sync disabled. -/
def g6 : RepoGroup :=
  { repo := "r", files := [{ source := "docs", localPath := "out" }], sync := some false,
    branch := some "main", force := some false, forkRepo := none }

/-- Recorded open pull request of the contribute scenarios. -/
def pr7 : PullRequestInfo :=
  { prNumber := 5, branchName := "contribute-2025-01-01", status := "open", lastUpdated := "t0" }

/-- Repo record carrying a fork and the recorded PR. -/
def rd7 : RepoSyncData :=
  { branch := "main", lastCommitHash := "c1", syncedAt := "", forkRepo := some "u/f",
    filePaths := [], files := [], pullRequest := some pr7 }

/-- World where the recorded PR is still open but syncing the fork fails. -/
def world7 : GitWorld :=
  { prStatusOf := fun _ _ => some pr7, syncForkOk := false, checkoutOk := true,
    mergeMainOk := true, createBranchOk := true, commitOk := true, changesCommitted := true,
    pushOk := true, forcePushOk := true, createPRResult := some (9, "u1") }

/-- World where the recorded PR is still open and every step succeeds. -/
def world8a : GitWorld :=
  { prStatusOf := fun _ _ => some pr7, syncForkOk := true, checkoutOk := true,
    mergeMainOk := true, createBranchOk := true, commitOk := true, changesCommitted := true,
    pushOk := true, forcePushOk := true, createPRResult := some (9, "u1") }

/-- The recorded PR as the forge reports it once merged. -/
def pr8m : PullRequestInfo :=
  { prNumber := 5, branchName := "contribute-2025-01-01", status := "merged", lastUpdated := "t0" }

/-- World where the recorded PR has been merged and every step succeeds. -/
def world8b : GitWorld :=
  { prStatusOf := fun _ _ => some pr8m, syncForkOk := true, checkoutOk := true,
    mergeMainOk := true, createBranchOk := true, commitOk := true, changesCommitted := true,
    pushOk := true, forcePushOk := true, createPRResult := some (9, "u1") }

/-- A contribute delete operation whose target is absent from the fork clone. -/
def op10 : ContributeSyncOperation :=
  { absoluteLocalPath := "/w/out/extra.md", absoluteSourcePath := "/tmp/f/docs/extra.md",
    relativeLocalPath := "out/extra.md", relativeSourcePath := "docs/extra.md",
    repo := "r", operationType := ContributeOperationType.delete }

/-- Fork clone contents for the C10 witness: the delete target is absent. -/
def forkFs10 : Fs := fun p => if p == "/tmp/f/docs/readme.md" then some "v1" else none

/-- Local workspace contents for the C10 witness. -/
def localFs10 : Fs := fun p => if p == "/w/out/readme.md" then some "v2" else none

/-! Helper lemmas. -/

theorem alookup_cons {α : Type} (hd : String × α) (tl : List (String × α)) (k : String) :
    alookup (hd :: tl) k = if hd.1 == k then some hd.2 else alookup tl k := by
  cases h : hd.1 == k <;> simp [alookup, List.find?, h]

theorem alookup_ainsert {α : Type} (l : List (String × α)) (k k' : String) (v : α) :
    alookup (ainsert l k' v) k = if k' == k then some v else alookup l k := by
  induction l with
  | nil =>
    simp only [ainsert]
    rw [alookup_cons]
  | cons hd tl ih =>
    obtain ⟨k0, v0⟩ := hd
    by_cases h0 : (k0 == k') = true
    · have hk0 : k0 = k' := eq_of_beq h0
      subst hk0
      have h2 : ainsert ((k0, v0) :: tl) k0 v = (k0, v) :: tl := by
        simp [ainsert]
      rw [h2, alookup_cons, alookup_cons]
      cases h1 : k0 == k <;> simp [h1]
    · have h2 : ainsert ((k0, v0) :: tl) k' v = (k0, v0) :: ainsert tl k' v := by
        simp [ainsert, h0]
      rw [h2, alookup_cons]
      by_cases h1 : (k0 == k) = true
      · have hk : k0 = k := eq_of_beq h1
        subst hk
        have h3 : (k' == k0) = false := by
          cases h4 : k' == k0
          · rfl
          · exact absurd (eq_of_beq h4).symm (fun he => h0 (beq_iff_eq.mpr he))
        simp [alookup_cons, h1, h3]
      · have h1f : (k0 == k) = false := by simpa using h1
        simp [alookup_cons, h1f, ih]

theorem alookup_ainsert_isSome {α : Type} (l : List (String × α)) (k k' : String) (v : α)
    (h : (alookup l k).isSome = true) : (alookup (ainsert l k' v) k).isSome = true := by
  rw [alookup_ainsert]
  by_cases hk : (k' == k) = true
  · simp [hk]
  · have hkf : (k' == k) = false := by simpa using hk
    simpa [hkf] using h

theorem alookup_foldl_ainsert_isSome {α : Type} (entries : List (String × α))
    (l : List (String × α)) (k : String) (h : (alookup l k).isSome = true) :
    (alookup (entries.foldl (fun acc kv => ainsert acc kv.1 kv.2) l) k).isSome = true := by
  induction entries generalizing l with
  | nil => simpa using h
  | cons hd tl ih =>
    simp only [List.foldl_cons]
    exact ih _ (alookup_ainsert_isSome l k hd.1 hd.2 h)

/-! Claim theorems. -/

/-- C1: the specification states that when the local file exists, the tracker
    hash is non-null, the tracker action is not MERGE, and the local hash
    differs from the tracker hash but equals the source hash, actionOnFile
    returns UPDATE_TRACKER. In the code the branch for that very configuration
    (file-utils.ts lines 138-147) returns COPY, and actionOnFile can never
    return UPDATE_TRACKER on any input, leaving the UPDATE_TRACKER case of
    executeSyncOperations dead: first conjunct evaluates the engine at such an
    input, second conjunct proves UPDATE_TRACKER unreachable. -/
theorem C1_decision_local_equals_source :
    (actionOnFile c1Fs id "src/a.md" "out/a.md" "r" "out/a.md" c1Tracker (some "c2")).action
      = FileAction.COPY ∧
    ∀ (fs : Fs) (hash : String → String) (sourcePath localPath repo rel : String)
      (t : TrackerConfig) (srcCommit : Option String),
      (actionOnFile fs hash sourcePath localPath repo rel t srcCommit).action
        ≠ FileAction.UPDATE_TRACKER := by
  constructor
  · decide
  · intro fs hash sourcePath localPath repo rel t srcCommit
    simp only [actionOnFile]
    repeat' split
    all_goals simp

/-- C2 counterexample: a file whose tracker action is merge and whose source
    commit has not advanced, but whose local copy is missing: actionOnFile
    answers COPY, not NONE, because the local-missing rule precedes the
    merge gate. -/
theorem C2_counterexample :
    trackerActionOf c2Tracker "r" "out/a.md" = some "merge" ∧
    lastCommitHashOf c2Tracker "r" = currentCommitHashOf c2Tracker "r" (some "c1") ∧
    (actionOnFile c2Fs id "src/a.md" "out/a.md" "r" "out/a.md" c2Tracker (some "c1")).action
      = FileAction.COPY := by
  decide

/-- C2 (amended): for every file whose tracker action is MERGE and whose local
    file exists, the decision is NONE when the recorded last commit equals the
    current commit and MERGE otherwise, regardless of any hash drift between
    the source, local, and tracker hashes. -/
theorem C2_merge_gate_requires_local (fs : Fs) (hash : String → String)
    (sourcePath localPath repo rel : String) (t : TrackerConfig) (srcCommit : Option String)
    (hl : (fs localPath).isSome = true)
    (ha : trackerActionOf t repo rel = some "merge") :
    (actionOnFile fs hash sourcePath localPath repo rel t srcCommit).action =
      (if lastCommitHashOf t repo == currentCommitHashOf t repo srcCommit
       then FileAction.NONE else FileAction.MERGE) := by
  obtain ⟨v, hv⟩ := Option.isSome_iff_exists.mp hl
  unfold actionOnFile
  simp only [hv, Option.isNone_some, Bool.false_eq_true, if_false, ha]
  have hbeq : ((some "merge" : Option String) == some "merge") = true := by decide
  simp only [hbeq, if_true]
  by_cases hc : (lastCommitHashOf t repo == currentCommitHashOf t repo srcCommit) = true
  · simp [hc]
  · simp [hc]

/-- C2 witness: the merge gate applied to a present local file whose upstream
    commit advanced. -/
theorem C2_merge_gate_requires_local_witness :
    (c2wFs "out/a.md").isSome = true ∧
    trackerActionOf c2Tracker "r" "out/a.md" = some "merge" ∧
    (actionOnFile c2wFs id "src/a.md" "out/a.md" "r" "out/a.md" c2Tracker (some "c2")).action =
      (if lastCommitHashOf c2Tracker "r" == currentCommitHashOf c2Tracker "r" (some "c2")
       then FileAction.NONE else FileAction.MERGE) :=
  ⟨by decide, by decide,
   C2_merge_gate_requires_local c2wFs id "src/a.md" "out/a.md" "r" "out/a.md" c2Tracker
     (some "c2") (by decide) (by decide)⟩

/-- C3: the specification states that a true force flag makes the per-file
    decision COPY. In the code the force flag never reaches the decision:
    executeSyncOperations forwards force as a seventh argument to the
    six-parameter actionOnFile, so a local-only change still yields NONE under
    force (first conjunct); force only disables the repo-level commit
    short-circuit in checkIfShouldFetch (second conjunct). -/
theorem C3_force_ignored_by_decision :
    ((executeSyncOperations c3Fs id env3 "t0" [op3] c3Tracker (some "c2") true).results.map
        (fun r => r.actionResult.action)) = [FileAction.NONE] ∧
    ∀ (repo branch : String) (sync : Bool) (t : TrackerConfig) (tip : Except String String),
      (checkIfShouldFetch repo branch sync true t tip).shouldFetch = true := by
  constructor
  · decide
  · intro repo branch sync t tip
    cases tip <;> simp [checkIfShouldFetch]

/-- C6 counterexample: a repo group with sync disabled is always fetched, but
    at the end of a successful pass the tracker is left untouched: the observed
    tip commit abc is not recorded anywhere (the repo has no tracker entry at
    all afterwards). -/
theorem C6_counterexample :
    (checkIfShouldFetch "r" "main" false false c4Tracker (Except.ok "abc")).shouldFetch = true ∧
    processRepoTrackerAfter g6 c4Tracker (Except.ok "abc") [] false "t0" = c4Tracker ∧
    alookup c4Tracker.repos "r" = none := by
  refine ⟨by decide, ?_, by decide⟩
  decide

/-- C6 (amended): for every repo group with sync disabled, ingest always
    fetches (checkIfShouldFetch never short-circuits on a commit match), and
    the tracker is never updated at the end of the repo pass: processRepo
    writes the tracker only when sync is enabled. -/
theorem C6_sync_disabled_always_fetch_no_tracker_update (g : RepoGroup) (t : TrackerConfig)
    (tip : Except String String) (fd : List (String × List (String × FileSyncData)))
    (hasError : Bool) (now : String) (hs : g.sync.getD false = false) :
    (checkIfShouldFetch g.repo (g.branch.getD "main") (g.sync.getD false) (g.force.getD false)
        t tip).shouldFetch = true ∧
    processRepoTrackerAfter g t tip fd hasError now = t := by
  constructor
  · rw [hs]
    cases tip <;> simp [checkIfShouldFetch]
  · unfold processRepoTrackerAfter
    rw [hs]
    cases tip <;> simp [checkIfShouldFetch]

/-- C6 witness: the sync-disabled behaviour at the concrete scenario. -/
theorem C6_sync_disabled_always_fetch_no_tracker_update_witness :
    g6.sync.getD false = false ∧
    ((checkIfShouldFetch g6.repo (g6.branch.getD "main") (g6.sync.getD false)
        (g6.force.getD false) c4Tracker (Except.ok "abc")).shouldFetch = true ∧
     processRepoTrackerAfter g6 c4Tracker (Except.ok "abc") [] false "t0" = c4Tracker) :=
  ⟨by decide,
   C6_sync_disabled_always_fetch_no_tracker_update g6 c4Tracker (Except.ok "abc") [] false "t0"
     (by decide)⟩

/-- C10: a contribute delete operation whose target path is absent from the
    fork clone is recorded as a successful skip and leaves the clone unchanged;
    a missing deletion target is never reported as a failure. -/
theorem C10_missing_delete_target_skips (localFs forkFs : Fs)
    (operation : ContributeSyncOperation)
    (hop : operation.operationType = ContributeOperationType.delete)
    (habs : forkFs operation.absoluteSourcePath = none) :
    executeContributeSyncOperations localFs forkFs [operation] false =
      (forkFs, [{ operation := operation, success := true, error := none,
                  action := ContribResultAction.skip }]) := by
  simp only [executeContributeSyncOperations, List.foldl_cons, List.foldl_nil]
  simp [hop, habs]

/-- C10 witness: the skip behaviour at the concrete missing-target operation. -/
theorem C10_missing_delete_target_skips_witness :
    op10.operationType = ContributeOperationType.delete ∧
    forkFs10 op10.absoluteSourcePath = none ∧
    executeContributeSyncOperations localFs10 forkFs10 [op10] false =
      (forkFs10, [{ operation := op10, success := true, error := none,
                    action := ContribResultAction.skip }]) :=
  ⟨by decide, by decide,
   C10_missing_delete_target_skips localFs10 forkFs10 op10 (by decide) (by decide)⟩

/-- C7 counterexample: the recorded PR is open on a distinct fork and
    syncForkWithSource fails; the engine aborts this repository's contribute
    (no branch work, no push, no PR), instead of warning and continuing with
    the outdated fork as the claim states. -/
theorem C7_counterexample :
    (contributeRepo "o/r" "u/f" "contribute-new" (some rd7) world7 false false "t1").abortedOnSyncFork
      = true ∧
    (contributeRepo "o/r" "u/f" "contribute-new" (some rd7) world7 false false "t1").forcePushAttempted
      = false ∧
    (contributeRepo "o/r" "u/f" "contribute-new" (some rd7) world7 false false "t1").prCreateAttempted
      = false := by
  decide

/-- C7 (amended): when syncForkWithSource fails while updating an open PR on a
    distinct fork, the engine logs an error and aborts that repository's
    contribute, skipping branch work, pushes and PR creation and leaving the
    recorded PR untouched; processing continues with the next repository. -/
theorem C7_sync_fork_failure_aborts_repo (repo forkRepo defaultBranchName : String)
    (rd : RepoSyncData) (world : GitWorld) (opsEmpty dryRun : Bool) (now : String)
    (pr st : PullRequestInfo)
    (hpr : rd.pullRequest = some pr)
    (hst : world.prStatusOf repo pr.prNumber = some st)
    (hopen : st.status = "open")
    (hfork : (forkRepo == repo) = false)
    (hsync : world.syncForkOk = false) :
    (contributeRepo repo forkRepo defaultBranchName (some rd) world opsEmpty dryRun now).abortedOnSyncFork
      = true ∧
    (contributeRepo repo forkRepo defaultBranchName (some rd) world opsEmpty dryRun now).forcePushAttempted
      = false ∧
    (contributeRepo repo forkRepo defaultBranchName (some rd) world opsEmpty dryRun now).regularPushAttempted
      = false ∧
    (contributeRepo repo forkRepo defaultBranchName (some rd) world opsEmpty dryRun now).prCreateAttempted
      = false ∧
    (contributeRepo repo forkRepo defaultBranchName (some rd) world opsEmpty dryRun now).pullRequestAfter
      = some pr := by
  have hbeq : (st.status == "open") = true := beq_iff_eq.mpr hopen
  simp [contributeRepo, hpr, hst, hbeq, hfork, hsync, baseTrace]

/-- C7 witness: the abort behaviour at the concrete scenario. -/
theorem C7_sync_fork_failure_aborts_repo_witness :
    rd7.pullRequest = some pr7 ∧
    world7.prStatusOf "o/r" pr7.prNumber = some pr7 ∧
    pr7.status = "open" ∧
    (("u/f" : String) == "o/r") = false ∧
    world7.syncForkOk = false ∧
    ((contributeRepo "o/r" "u/f" "contribute-new" (some rd7) world7 false false "t1").abortedOnSyncFork
        = true ∧
     (contributeRepo "o/r" "u/f" "contribute-new" (some rd7) world7 false false "t1").forcePushAttempted
        = false ∧
     (contributeRepo "o/r" "u/f" "contribute-new" (some rd7) world7 false false "t1").regularPushAttempted
        = false ∧
     (contributeRepo "o/r" "u/f" "contribute-new" (some rd7) world7 false false "t1").prCreateAttempted
        = false ∧
     (contributeRepo "o/r" "u/f" "contribute-new" (some rd7) world7 false false "t1").pullRequestAfter
        = some pr7) :=
  ⟨rfl, rfl, rfl, by decide, rfl,
   C7_sync_fork_failure_aborts_repo "o/r" "u/f" "contribute-new" rd7 world7 false false "t1"
     pr7 pr7 rfl rfl rfl (by decide) rfl⟩

/-- C8: when the tracker records a PR that the forge still reports open, the
    next contribute reuses the recorded branch name verbatim, force-pushes, and
    does not open a second PR; when the recorded PR is closed or merged, the
    engine uses the newly computed default branch name, pushes normally and
    creates a fresh PR, recording it in the tracker. -/
theorem C8_pr_lifecycle (repo forkRepo defaultBranchName now : String)
    (rd : RepoSyncData) (world : GitWorld) (pr st : PullRequestInfo)
    (hpr : rd.pullRequest = some pr)
    (hst : world.prStatusOf repo pr.prNumber = some st)
    (hcommit : world.commitOk = true)
    (hchanges : world.changesCommitted = true) :
    (st.status = "open" →
      (forkRepo = repo ∨ world.syncForkOk = true) →
      world.checkoutOk = true →
      (contributeRepo repo forkRepo defaultBranchName (some rd) world false false now).branchName
          = pr.branchName ∧
      (contributeRepo repo forkRepo defaultBranchName (some rd) world false false now).updateExistingPR
          = true ∧
      (contributeRepo repo forkRepo defaultBranchName (some rd) world false false now).forcePushAttempted
          = true ∧
      (contributeRepo repo forkRepo defaultBranchName (some rd) world false false now).regularPushAttempted
          = false ∧
      (contributeRepo repo forkRepo defaultBranchName (some rd) world false false now).prCreateAttempted
          = false) ∧
    (st.status ≠ "open" →
      world.createBranchOk = true →
      world.pushOk = true →
      ∀ (n : Nat) (url : String), world.createPRResult = some (n, url) →
      (contributeRepo repo forkRepo defaultBranchName (some rd) world false false now).branchName
          = defaultBranchName ∧
      (contributeRepo repo forkRepo defaultBranchName (some rd) world false false now).updateExistingPR
          = false ∧
      (contributeRepo repo forkRepo defaultBranchName (some rd) world false false now).forcePushAttempted
          = false ∧
      (contributeRepo repo forkRepo defaultBranchName (some rd) world false false now).prCreateAttempted
          = true ∧
      (contributeRepo repo forkRepo defaultBranchName (some rd) world false false now).prCreated
          = true ∧
      (contributeRepo repo forkRepo defaultBranchName (some rd) world false false now).pullRequestAfter
          = some { prNumber := n, branchName := defaultBranchName, status := "open",
                   lastUpdated := now }) := by
  constructor
  · intro hopen hforkok hcheckout
    have hbeq : (st.status == "open") = true := beq_iff_eq.mpr hopen
    rcases hforkok with hfr | hso
    · subst hfr
      simp [contributeRepo, hpr, hst, hbeq, hcheckout, hcommit, hchanges, baseTrace]
    · simp [contributeRepo, hpr, hst, hbeq, hso, hcheckout, hcommit, hchanges, baseTrace]
  · intro hnopen hbranch hpush n url hcreate
    have hbeq : (st.status == "open") = false := by
      cases h : st.status == "open"
      · rfl
      · exact absurd (eq_of_beq h) hnopen
    simp [contributeRepo, hpr, hst, hbeq, hbranch, hcommit, hchanges, hpush, hcreate, baseTrace]

/-- C8 witness: the open-PR update path at one concrete world and the
    closed-PR fresh-path at another. -/
theorem C8_pr_lifecycle_witness :
    ((contributeRepo "o/r" "u/f" "contribute-new" (some rd7) world8a false false "t1").branchName
        = pr7.branchName ∧
     (contributeRepo "o/r" "u/f" "contribute-new" (some rd7) world8a false false "t1").updateExistingPR
        = true ∧
     (contributeRepo "o/r" "u/f" "contribute-new" (some rd7) world8a false false "t1").forcePushAttempted
        = true ∧
     (contributeRepo "o/r" "u/f" "contribute-new" (some rd7) world8a false false "t1").regularPushAttempted
        = false ∧
     (contributeRepo "o/r" "u/f" "contribute-new" (some rd7) world8a false false "t1").prCreateAttempted
        = false) ∧
    ((contributeRepo "o/r" "u/f" "contribute-new" (some rd7) world8b false false "t1").branchName
        = "contribute-new" ∧
     (contributeRepo "o/r" "u/f" "contribute-new" (some rd7) world8b false false "t1").updateExistingPR
        = false ∧
     (contributeRepo "o/r" "u/f" "contribute-new" (some rd7) world8b false false "t1").forcePushAttempted
        = false ∧
     (contributeRepo "o/r" "u/f" "contribute-new" (some rd7) world8b false false "t1").prCreateAttempted
        = true ∧
     (contributeRepo "o/r" "u/f" "contribute-new" (some rd7) world8b false false "t1").prCreated
        = true ∧
     (contributeRepo "o/r" "u/f" "contribute-new" (some rd7) world8b false false "t1").pullRequestAfter
        = some { prNumber := 9, branchName := "contribute-new", status := "open",
                 lastUpdated := "t1" }) :=
  ⟨(C8_pr_lifecycle "o/r" "u/f" "contribute-new" "t1" rd7 world8a pr7 pr7
      rfl rfl rfl rfl).1 rfl (Or.inr rfl) rfl,
   (C8_pr_lifecycle "o/r" "u/f" "contribute-new" "t1" rd7 world8b pr7 pr8m
      rfl rfl rfl rfl).2 (by decide) rfl rfl 9 "u1" rfl⟩

/-- C5: for a MERGE operation executed by executeSyncOperations in which the
    merge oracle errors or returns no content, the local file system is left
    unchanged, no updated file record is produced for the file, and the
    operation is reported as failed in the results. -/
theorem C5_merge_failure_preserves (fs : Fs) (hash : String → String) (env : OracleEnv)
    (now : String) (operation : FileSyncOperation) (t : TrackerConfig)
    (srcCommit : Option String) (force : Bool)
    (ha : (actionOnFile fs hash operation.sourcePath operation.localPath operation.repo
        operation.relativeLocalPath t srcCommit).action = FileAction.MERGE)
    (horacle : ∀ lc sc, fs operation.localPath = some lc → fs operation.sourcePath = some sc →
        env.aiMerge lc sc = MergeOutcome.noContent ∨
        ∃ m, env.aiMerge lc sc = MergeOutcome.err m) :
    (executeSyncOperations fs hash env now [operation] t srcCommit force).fs = fs ∧
    ((alookup (executeSyncOperations fs hash env now [operation] t srcCommit force).updatedFiles
        operation.repo).bind
      (fun m => alookup m operation.relativeLocalPath)) = none ∧
    (executeSyncOperations fs hash env now [operation] t srcCommit force).results.map
        (fun r => r.success) = [false] := by
  simp only [executeSyncOperations, List.foldl_cons, List.foldl_nil]
  simp only [executeSyncOp]
  rw [ha]
  by_cases hcfg : (!(strTruthy env.model) || !(strTruthy env.apiKey)) = true
  · simp [hcfg, mkSyncResult, alookup, ainsert, List.find?]
  · have hcfgf : (!(strTruthy env.model) || !(strTruthy env.apiKey)) = false := by
      simpa using hcfg
    cases hsp : fs operation.sourcePath with
    | none =>
      cases hlp : fs operation.localPath with
      | none => simp [hcfgf, hsp, hlp, mkSyncResult, alookup, ainsert, List.find?]
      | some lc => simp [hcfgf, hsp, hlp, mkSyncResult, alookup, ainsert, List.find?]
    | some sc =>
      cases hlp : fs operation.localPath with
      | none => simp [hcfgf, hsp, hlp, mkSyncResult, alookup, ainsert, List.find?]
      | some lc =>
        rcases horacle lc sc hlp hsp with hno | ⟨m, hm⟩
        · simp [hcfgf, hsp, hlp, hno, mkSyncResult, alookup, ainsert, List.find?]
        · simp [hcfgf, hsp, hlp, hm, mkSyncResult, alookup, ainsert, List.find?]

/-- C5 witness: a diverged file whose oracle returns no content. -/
theorem C5_merge_failure_preserves_witness :
    (actionOnFile c5Fs id op3.sourcePath op3.localPath op3.repo op3.relativeLocalPath
        c5Tracker (some "c2")).action = FileAction.MERGE ∧
    (∀ lc sc, c5Fs op3.localPath = some lc → c5Fs op3.sourcePath = some sc →
        env3.aiMerge lc sc = MergeOutcome.noContent ∨
        ∃ m, env3.aiMerge lc sc = MergeOutcome.err m) ∧
    ((executeSyncOperations c5Fs id env3 "t0" [op3] c5Tracker (some "c2") false).fs = c5Fs ∧
     ((alookup (executeSyncOperations c5Fs id env3 "t0" [op3] c5Tracker
          (some "c2") false).updatedFiles op3.repo).bind
        (fun m => alookup m op3.relativeLocalPath)) = none ∧
     (executeSyncOperations c5Fs id env3 "t0" [op3] c5Tracker (some "c2") false).results.map
        (fun r => r.success) = [false]) :=
  ⟨by decide, fun lc sc _ _ => Or.inl rfl,
   C5_merge_failure_preserves c5Fs id env3 "t0" op3 c5Tracker (some "c2") false
     (by decide) (fun lc sc _ _ => Or.inl rfl)⟩

mutual
/-- The cleanup walk never changes an entry: no branch of cleanEmptyDirs
    performs a successful removal. -/
theorem cleanEmptyDirs_id : ∀ (e : FsEntry), cleanEmptyDirs e = e := by
  intro e
  cases e with
  | file c => rfl
  | dir es => simp [cleanEmptyDirs, cleanEmptyDirsEntries_id es]

/-- The cleanup walk never changes a directory's entries. -/
theorem cleanEmptyDirsEntries_id : ∀ (es : FsEntries), cleanEmptyDirsEntries es = es := by
  intro es
  cases es with
  | nil => rfl
  | cons n e tl =>
    cases e with
    | file c => simp [cleanEmptyDirsEntries, cleanEmptyDirsEntries_id tl]
    | dir sub =>
      by_cases hs : hasSubdirectory sub = true
      · simp [cleanEmptyDirsEntries, hs, cleanEmptyDirsEntries_id sub, cleanEmptyDirsEntries_id tl]
      · have hsf : hasSubdirectory sub = false := by simpa using hs
        simp [cleanEmptyDirsEntries, hsf, cleanEmptyDirsEntries_id tl]
end

/-- Lookup by a name not present among a directory's entries yields nothing. -/
theorem lookup_not_contains : ∀ (es : FsEntries) (n : String) (rest : List String),
    containsName es n = false → lookupFileEntries es n rest = none := by
  intro es n rest h
  cases es with
  | nil => rfl
  | cons m e tl =>
    simp only [containsName, Bool.or_eq_false_iff] at h
    simp only [lookupFileEntries, h.1, Bool.false_eq_true, if_false]
    exact lookup_not_contains tl n rest h.2

mutual
/-- Removing a path from an entry makes file lookup at that path fail, unless
    the entry itself is a bare file. -/
theorem lookup_removeFileAt_self : ∀ (e : FsEntry) (n : String) (rest : List String),
    lookupFile (removeFileAt e (n :: rest)) (n :: rest) = none ∨ ∃ c, e = FsEntry.file c := by
  intro e n rest
  cases e with
  | file c => exact Or.inr ⟨c, rfl⟩
  | dir es =>
    left
    simp only [removeFileAt, lookupFile]
    exact lookup_removeFileEntries_self es n rest

/-- Removing a path from a directory's entries makes file lookup at that path fail. -/
theorem lookup_removeFileEntries_self : ∀ (es : FsEntries) (n : String) (rest : List String),
    lookupFileEntries (removeFileEntries es n rest) n rest = none := by
  intro es n rest
  cases es with
  | nil => rfl
  | cons m e tl =>
    have ih := lookup_removeFileEntries_self tl n rest
    cases rest with
    | nil =>
      simp only [removeFileEntries]
      by_cases hm : (m == n) = true
      · cases e with
        | file c => simp [hm, isDir, ih]
        | dir sub => simp [hm, isDir, lookupFileEntries, lookupFile, ih]
      · have hmf : (m == n) = false := by simpa using hm
        simp [hmf, lookupFileEntries, ih]
    | cons r rs =>
      simp only [removeFileEntries]
      by_cases hm : (m == n) = true
      · cases lookup_removeFileAt_self e r rs with
        | inl h => simp [hm, lookupFileEntries, h]
        | inr h =>
          obtain ⟨c, hc⟩ := h
          subst hc
          simp [hm, lookupFileEntries, removeFileAt, lookupFile]
      · have hmf : (m == n) = false := by simpa using hm
        simp [hmf, lookupFileEntries, ih]
end

/-- File removal introduces no new names into a directory's entries. -/
theorem containsName_removeFileEntries : ∀ (es : FsEntries) (n : String) (rest : List String)
    (x : String), containsName (removeFileEntries es n rest) x = true →
    containsName es x = true := by
  intro es n rest x h
  cases es with
  | nil => simpa [removeFileEntries] using h
  | cons m e tl =>
    cases rest with
    | nil =>
      simp only [removeFileEntries] at h
      by_cases hdrop : (m == n && !(isDir e)) = true
      · rw [if_pos hdrop] at h
        have := containsName_removeFileEntries tl n [] x h
        simp [containsName, this]
      · rw [if_neg hdrop] at h
        simp only [containsName, Bool.or_eq_true] at h ⊢
        rcases h with h | h
        · exact Or.inl h
        · exact Or.inr (containsName_removeFileEntries tl n [] x h)
    | cons r rs =>
      simp only [removeFileEntries] at h
      by_cases hm : (m == n) = true
      · rw [if_pos hm] at h
        simp only [containsName, Bool.or_eq_true] at h ⊢
        rcases h with h | h
        · exact Or.inl h
        · exact Or.inr (containsName_removeFileEntries tl n (r :: rs) x h)
      · rw [if_neg hm] at h
        simp only [containsName, Bool.or_eq_true] at h ⊢
        rcases h with h | h
        · exact Or.inl h
        · exact Or.inr (containsName_removeFileEntries tl n (r :: rs) x h)

mutual
/-- File removal preserves well-formedness of an entry. -/
theorem wf_removeFileAt : ∀ (e : FsEntry) (q : List String),
    wfEntry e = true → wfEntry (removeFileAt e q) = true := by
  intro e q hw
  cases e with
  | file c => simpa [removeFileAt] using hw
  | dir es =>
    cases q with
    | nil => simpa [removeFileAt] using hw
    | cons n rest =>
      simp only [removeFileAt, wfEntry] at hw ⊢
      exact wf_removeFileEntries es n rest hw

/-- File removal preserves well-formedness of a directory's entries. -/
theorem wf_removeFileEntries : ∀ (es : FsEntries) (n : String) (rest : List String),
    wfEntries es = true → wfEntries (removeFileEntries es n rest) = true := by
  intro es n rest hw
  cases es with
  | nil => simpa [removeFileEntries] using hw
  | cons m e tl =>
    simp only [wfEntries, Bool.and_eq_true] at hw
    obtain ⟨⟨hc, he⟩, htl⟩ := hw
    have hcf : containsName tl m = false := by simpa using hc
    have hcr : containsName (removeFileEntries tl n rest) m = false := by
      cases h2 : containsName (removeFileEntries tl n rest) m
      · rfl
      · rw [containsName_removeFileEntries tl n rest m h2] at hcf
        exact hcf
    cases rest with
    | nil =>
      simp only [removeFileEntries]
      by_cases hdrop : (m == n && !(isDir e)) = true
      · rw [if_pos hdrop]
        exact wf_removeFileEntries tl n [] htl
      · rw [if_neg hdrop]
        simp only [wfEntries, Bool.and_eq_true]
        exact ⟨⟨by simpa using hcr, he⟩, wf_removeFileEntries tl n [] htl⟩
    | cons r rs =>
      simp only [removeFileEntries]
      by_cases hm : (m == n) = true
      · rw [if_pos hm]
        simp only [wfEntries, Bool.and_eq_true]
        exact ⟨⟨by simpa using hcr, wf_removeFileAt e (r :: rs) he⟩,
          wf_removeFileEntries tl n (r :: rs) htl⟩
      · rw [if_neg hm]
        simp only [wfEntries, Bool.and_eq_true]
        exact ⟨⟨by simpa using hcr, he⟩, wf_removeFileEntries tl n (r :: rs) htl⟩
end

mutual
/-- On a well-formed entry, removing one path never makes a failed lookup
    succeed. -/
theorem lookup_none_removeFileAt : ∀ (e : FsEntry) (q p : List String),
    wfEntry e = true → lookupFile e p = none → lookupFile (removeFileAt e q) p = none := by
  intro e q p hw hl
  cases e with
  | file c => simpa [removeFileAt] using hl
  | dir es =>
    cases q with
    | nil => simpa [removeFileAt] using hl
    | cons m qrest =>
      cases p with
      | nil => simp [removeFileAt, lookupFile]
      | cons n rest =>
        simp only [removeFileAt, lookupFile] at hl ⊢
        exact lookup_none_removeFileEntries es m qrest n rest hw hl

/-- On well-formed entries, removing one path never makes a failed lookup
    succeed. -/
theorem lookup_none_removeFileEntries : ∀ (es : FsEntries) (m : String) (qrest : List String)
    (n : String) (rest : List String),
    wfEntries es = true → lookupFileEntries es n rest = none →
    lookupFileEntries (removeFileEntries es m qrest) n rest = none := by
  intro es m qrest n rest hw hl
  cases es with
  | nil => simpa [removeFileEntries] using hl
  | cons a e tl =>
    simp only [wfEntries, Bool.and_eq_true] at hw
    obtain ⟨⟨hc, he⟩, htl⟩ := hw
    have hcf : containsName tl a = false := by simpa using hc
    by_cases han : (a == n) = true
    · have hl' : lookupFile e rest = none := by
        simpa [lookupFileEntries, han] using hl
      cases qrest with
      | nil =>
        simp only [removeFileEntries]
        by_cases hdrop : (a == m && !(isDir e)) = true
        · rw [if_pos hdrop]
          have hdropand := hdrop
          simp only [Bool.and_eq_true] at hdropand
          have ham : a = m := eq_of_beq hdropand.1
          have hanq : a = n := eq_of_beq han
          subst ham
          subst hanq
          have hcn : containsName (removeFileEntries tl a []) a = false := by
            cases h2 : containsName (removeFileEntries tl a []) a
            · rfl
            · rw [containsName_removeFileEntries tl a [] a h2] at hcf
              exact hcf
          exact lookup_not_contains _ a rest hcn
        · rw [if_neg hdrop]
          simp [lookupFileEntries, han, hl']
      | cons q1 q2 =>
        simp only [removeFileEntries]
        by_cases ham : (a == m) = true
        · rw [if_pos ham]
          simp [lookupFileEntries, han, lookup_none_removeFileAt e (q1 :: q2) rest he hl']
        · rw [if_neg ham]
          simp [lookupFileEntries, han, hl']
    · have hanf : (a == n) = false := by simpa using han
      have hl' : lookupFileEntries tl n rest = none := by
        simpa [lookupFileEntries, hanf] using hl
      have ihres := lookup_none_removeFileEntries tl m qrest n rest htl hl'
      cases qrest with
      | nil =>
        simp only [removeFileEntries]
        by_cases hdrop : (a == m && !(isDir e)) = true
        · rw [if_pos hdrop]
          exact ihres
        · rw [if_neg hdrop]
          simp [lookupFileEntries, hanf, ihres]
      | cons q1 q2 =>
        simp only [removeFileEntries]
        by_cases ham : (a == m) = true
        · rw [if_pos ham]
          simp [lookupFileEntries, hanf, ihres]
        · rw [if_neg ham]
          simp [lookupFileEntries, hanf, ihres]
end

/-- Path-level removal preserves well-formedness. -/
theorem wf_removeEntriesPath (es : FsEntries) (q : List String)
    (hw : wfEntries es = true) : wfEntries (removeEntriesPath es q) = true := by
  cases q with
  | nil => simpa [removeEntriesPath] using hw
  | cons m qrest => exact wf_removeFileEntries es m qrest hw

/-- Path-level removal makes lookup at the removed path fail. -/
theorem lookup_removeEntriesPath_self (es : FsEntries) (p : List String) :
    lookupEntriesPath (removeEntriesPath es p) p = none := by
  cases p with
  | nil => rfl
  | cons n rest => exact lookup_removeFileEntries_self es n rest

/-- Path-level removal never makes a failed lookup succeed (well-formed case). -/
theorem lookup_none_removeEntriesPath (es : FsEntries) (q p : List String)
    (hw : wfEntries es = true) (hl : lookupEntriesPath es p = none) :
    lookupEntriesPath (removeEntriesPath es q) p = none := by
  cases q with
  | nil => simpa [removeEntriesPath] using hl
  | cons m qrest =>
    cases p with
    | nil => rfl
    | cons n rest => exact lookup_none_removeFileEntries es m qrest n rest hw hl

/-- Batch removal preserves well-formedness. -/
theorem wf_removeAllEntries (paths : List (List String)) (es : FsEntries)
    (hw : wfEntries es = true) : wfEntries (removeAllEntries es paths) = true := by
  induction paths generalizing es with
  | nil => simpa [removeAllEntries] using hw
  | cons q qs ih =>
    simp only [removeAllEntries, List.foldl_cons]
    exact ih (removeEntriesPath es q) (wf_removeEntriesPath es q hw)

/-- Batch removal never makes a failed lookup succeed (well-formed case). -/
theorem lookup_none_removeAllEntries (paths : List (List String)) (es : FsEntries)
    (p : List String) (hw : wfEntries es = true) (hl : lookupEntriesPath es p = none) :
    lookupEntriesPath (removeAllEntries es paths) p = none := by
  induction paths generalizing es with
  | nil => simpa [removeAllEntries] using hl
  | cons q qs ih =>
    simp only [removeAllEntries, List.foldl_cons]
    exact ih (removeEntriesPath es q) (wf_removeEntriesPath es q hw)
      (lookup_none_removeEntriesPath es q p hw hl)

/-- After a batch removal on a well-formed directory, every removed path fails
    to look up. -/
theorem lookup_removeAllEntries_mem (paths : List (List String)) (es : FsEntries)
    (p : List String) (hw : wfEntries es = true) (hp : p ∈ paths) :
    lookupEntriesPath (removeAllEntries es paths) p = none := by
  induction paths generalizing es with
  | nil => cases hp
  | cons q qs ih =>
    simp only [removeAllEntries, List.foldl_cons]
    have hw' := wf_removeEntriesPath es q hw
    rcases List.mem_cons.mp hp with hpq | hpqs
    · subst hpq
      exact lookup_none_removeAllEntries qs (removeEntriesPath es p) p hw'
        (lookup_removeEntriesPath_self es p)
    · exact ih (removeEntriesPath es q) hw' hpqs

mutual
/-- Candidates produced under tracker narrowing carry tracked root-relative
    paths. -/
theorem collectDelete_tracked_entry : ∀ (sf keys : List String) (lb rel : String)
    (comps : List String) (name : String) (e : FsEntry) (c : DeleteCandidate),
    c ∈ collectDeleteEntry sf (some keys) lb rel comps name e → c.relativePath ∈ keys := by
  intro sf keys lb rel comps name e c hc
  cases e with
  | file cc =>
    simp only [collectDeleteEntry] at hc
    by_cases hsrc : (sf.contains (joinRel rel name)) = true
    · rw [if_pos hsrc] at hc
      cases hc
    · rw [if_neg hsrc] at hc
      by_cases htr : ((some keys : Option (List String)).isNone ||
          ((some keys : Option (List String)).getD []).contains
            (joinRel lb (joinRel rel name))) = true
      · rw [if_pos htr] at hc
        have hmem : keys.contains (joinRel lb (joinRel rel name)) = true := by
          simpa [Option.isNone] using htr
        have hceq : c = { pathComponents := comps ++ [name],
                          relativePath := joinRel lb (joinRel rel name) } := by
          simpa using hc
        subst hceq
        simpa using hmem
      · rw [if_neg htr] at hc
        cases hc
  | dir es =>
    simp only [collectDeleteEntry] at hc
    exact collectDelete_tracked_entries sf keys lb (joinRel rel name) (comps ++ [name]) es c hc

/-- Entries-level version of the tracked-candidates lemma. -/
theorem collectDelete_tracked_entries : ∀ (sf keys : List String) (lb rel : String)
    (comps : List String) (es : FsEntries) (c : DeleteCandidate),
    c ∈ collectDeleteEntries sf (some keys) lb rel comps es → c.relativePath ∈ keys := by
  intro sf keys lb rel comps es c hc
  cases es with
  | nil => cases hc
  | cons n e tl =>
    simp only [collectDeleteEntries] at hc
    rcases List.mem_append.mp hc with h | h
    · exact collectDelete_tracked_entry sf keys lb rel comps n e c h
    · exact collectDelete_tracked_entries sf keys lb rel comps tl c h
end

/-- C4 counterexample: when the tracker has no record for the repo,
    handleDeletedFiles skips the tracked-files narrowing entirely, and a file
    never recorded in the tracker is deleted after the user picks delete-all;
    the claim that no file outside the tracked set is ever deleted fails. -/
theorem C4_counterexample :
    (handleDeletedFiles (some FsEntries.nil) (some les4) "out" "r" c4Tracker
        DeleteChoice.deleteAll).removedFiles = ["out/junk.md"] ∧
    alookup c4Tracker.repos "r" = none := by
  constructor
  · decide
  · decide

/-- C4 (amended): no file is deleted without an affirmative prompt answer
    (keep-all leaves the tree and the tracker candidates untouched), and
    whenever the tracker does carry a record for the repo, every deleted path
    lies in that repo's tracked file set; the narrowing is skipped only when
    the repo has no tracker data at all. -/
theorem C4_deletion_safety (sourceDir : Option FsEntries) (les : FsEntries)
    (localBase repo : String) (t : TrackerConfig) (choice : DeleteChoice) :
    (choice = DeleteChoice.keepAll →
      handleDeletedFiles sourceDir (some les) localBase repo t choice =
        { localAfter := some les, removedFiles := [] }) ∧
    (∀ rd, alookup t.repos repo = some rd →
      ∀ p ∈ (handleDeletedFiles sourceDir (some les) localBase repo t choice).removedFiles,
        p ∈ rd.files.map Prod.fst) := by
  constructor
  · intro hch
    subst hch
    simp only [handleDeletedFiles]
    split <;> rfl
  · intro rd hrd p hp
    have hkeys : trackedFilesOf t repo = some (rd.files.map Prod.fst) := by
      simp [trackedFilesOf, hrd]
    simp only [handleDeletedFiles] at hp
    by_cases hemp : (filesToDeleteOf sourceDir les localBase repo t).isEmpty = true
    · rw [if_pos hemp] at hp
      simp at hp
    · rw [if_neg hemp] at hp
      cases choice with
      | keepAll => simp at hp
      | deleteAll =>
        simp only at hp
        obtain ⟨c, hcmem, hfc⟩ := List.mem_map.mp hp
        rw [← hfc]
        unfold filesToDeleteOf at hcmem
        rw [hkeys] at hcmem
        exact collectDelete_tracked_entries _ _ _ _ _ _ _ hcmem
      | selectFiles sel =>
        simp only at hp
        by_cases hsel : sel.isEmpty = true
        · rw [if_pos hsel] at hp
          simp at hp
        · rw [if_neg hsel] at hp
          simp only at hp
          obtain ⟨c, hcmem, hfc⟩ := List.mem_map.mp hp
          rw [← hfc]
          have hcmem2 := (List.mem_filter.mp hcmem).1
          unfold filesToDeleteOf at hcmem2
          rw [hkeys] at hcmem2
          exact collectDelete_tracked_entries _ _ _ _ _ _ _ hcmem2

/-- C4 witness: keep-all is a no-op, and with tracker data present every
    delete-all removal is tracked. -/
theorem C4_deletion_safety_witness :
    (handleDeletedFiles (some FsEntries.nil) (some les4) "out" "r" c4wTracker
        DeleteChoice.keepAll =
      { localAfter := some les4, removedFiles := [] }) ∧
    (∀ p ∈ (handleDeletedFiles (some FsEntries.nil) (some les4) "out" "r" c4wTracker
        DeleteChoice.deleteAll).removedFiles, p ∈ c4wRd.files.map Prod.fst) :=
  ⟨(C4_deletion_safety (some FsEntries.nil) les4 "out" "r" c4wTracker
      DeleteChoice.keepAll).1 rfl,
   fun p hp =>
     (C4_deletion_safety (some FsEntries.nil) les4 "out" "r" c4wTracker
       DeleteChoice.deleteAll).2 c4wRd (by decide) p hp⟩

/-- C9 counterexample: after a confirmed deletion of the tracked file
    out/sub/a.md, the directory sub is left behind empty (the cleanup uses the
    file-unlink primitive, which fails on directories), and the end-of-pass
    tracker update still carries the file's record: records are never dropped. -/
theorem C9_counterexample :
    (handleDeletedFiles (some FsEntries.nil) (some les9) "out" "r" tracker9
        DeleteChoice.deleteAll).removedFiles = ["out/sub/a.md"] ∧
    isEmptyDir (entryAtOpt (handleDeletedFiles (some FsEntries.nil) (some les9) "out" "r"
        tracker9 DeleteChoice.deleteAll).localAfter ["sub"]) = true ∧
    ((alookup (updateTrackerWithLatestData "r" "main" "c2" [] tracker9
        [{ source := "docs", localPath := "out" }] none "t1").repos "r").bind
      (fun rd2 => alookup rd2.files "out/sub/a.md")).isSome = true := by
  refine ⟨by decide, by decide, by decide⟩

/-- C9 (amended): every file chosen in the deletion pass is removed from disk,
    but the cleanup never prunes a directory (cleanEmptyDirs is the identity)
    and the tracker's file records are never dropped (the end-of-pass tracker
    update only adds or overwrites records). -/
theorem C9_deletion_pass_effects :
    (∀ (src : Option FsEntries) (les : FsEntries) (localBase repo : String) (t : TrackerConfig),
      wfEntries les = true →
      ∀ c ∈ filesToDeleteOf src les localBase repo t,
        lookupEntriesPath
          ((handleDeletedFiles src (some les) localBase repo t
              DeleteChoice.deleteAll).localAfter.getD FsEntries.nil)
          c.pathComponents = none) ∧
    (∀ e, cleanEmptyDirs e = e) ∧
    (∀ (tc : TrackerConfig) (repo branch latest now key : String)
       (fd : List (String × List (String × FileSyncData))) (fps : List FetchFile)
       (fork : Option String) (rd : RepoSyncData),
      alookup tc.repos repo = some rd → (alookup rd.files key).isSome = true →
      ((alookup (updateTrackerWithLatestData repo branch latest fd tc fps fork now).repos
          repo).bind (fun rd2 => alookup rd2.files key)).isSome = true) := by
  refine ⟨?_, cleanEmptyDirs_id, ?_⟩
  · intro src les localBase repo t hwf c hc
    by_cases hemp : (filesToDeleteOf src les localBase repo t).isEmpty = true
    · have hnil : filesToDeleteOf src les localBase repo t = [] := by
        simpa [List.isEmpty_iff] using hemp
      rw [hnil] at hc
      cases hc
    · simp only [handleDeletedFiles]
      rw [if_neg hemp]
      simp only [Option.getD_some, cleanEmptyDirsEntries_id]
      exact lookup_removeAllEntries_mem _ les c.pathComponents hwf
        (List.mem_map_of_mem _ hc)
  · intro tc repo branch latest now key fd fps fork rd hrd hkey
    simp only [updateTrackerWithLatestData, hrd]
    cases hfd : alookup fd repo with
    | none => simp [alookup_ainsert, hkey]
    | some perRepo =>
      by_cases hlen : perRepo.length > 0
      · simp only [hlen, if_true, alookup_ainsert, beq_self_eq_true, if_pos]
        simp [alookup_ainsert, alookup_foldl_ainsert_isSome _ _ _ hkey]
      · simp [hlen, alookup_ainsert, hkey]

/-- C9 witness: the amended behaviour at the concrete sub/a.md scenario. -/
theorem C9_deletion_pass_effects_witness :
    wfEntries les9 = true ∧
    c9cand ∈ filesToDeleteOf (some FsEntries.nil) les9 "out" "r" tracker9 ∧
    lookupEntriesPath ((handleDeletedFiles (some FsEntries.nil) (some les9) "out" "r" tracker9
        DeleteChoice.deleteAll).localAfter.getD FsEntries.nil) c9cand.pathComponents = none ∧
    cleanEmptyDirs (FsEntry.dir les9) = FsEntry.dir les9 ∧
    ((alookup (updateTrackerWithLatestData "r" "main" "c2" [] tracker9
        [{ source := "docs", localPath := "out" }] none "t1").repos "r").bind
      (fun rd2 => alookup rd2.files "out/sub/a.md")).isSome = true :=
  ⟨by decide, by decide,
   C9_deletion_pass_effects.1 (some FsEntries.nil) les9 "out" "r" tracker9 (by decide)
     c9cand (by decide),
   C9_deletion_pass_effects.2.1 (FsEntry.dir les9),
   C9_deletion_pass_effects.2.2 tracker9 "r" "main" "c2" "t1" "out/sub/a.md" []
     [{ source := "docs", localPath := "out" }] none rd9 (by decide) (by decide)⟩

end OpenCodeCli
